import Mathlib

/-!
Verification of the kazuka MEV engine against its specification.

The development shallowly embeds the parts of the code base that the
claims touch: the Flashbots auth middleware
(`crates/kazuka-mev-share-rpc-api/src/middleware/auth.rs`), the engine
startup and pipeline (`crates/kazuka-core/src/engine.rs`), the MEV-share
SSE client (`crates/kazuka-mev-share-sse/src/client.rs`), the serde
models (`crates/kazuka-mev-share-sse/src/types.rs`,
`crates/kazuka-mev-share-rpc-api/src/types/core.rs`) and the reference
arbitrage strategy
(`crates/strategies/kazuka-mev-share-arbitrage/src/strategy.rs`).
External library behaviour (alloy signers, keccak, serde_json, tokio
channels) is modelled by explicit parameters or by the documented
semantics of those libraries.
-/

namespace Kazuka

/-! ## JSON values, as produced and consumed by serde_json -/

/-- A JSON value. Object fields keep insertion order, as serde_json's
streaming (de)serializers see them. -/
inductive Json where
  | null
  | bool (b : Bool)
  | num (n : Int)
  | str (s : String)
  | arr (elements : List Json)
  | obj (fields : List (String × Json))

/-- Look a field up in a JSON object (first occurrence). -/
def Json.lookupField : Json → String → Option Json
  | Json.obj fields, name => fields.lookup name
  | _, _ => none

/-! ## Flashbots auth middleware (`middleware/auth.rs`)

`AuthService::call` splits the request into parts, checks the
pass-through conditions, and otherwise signs the body digest and injects
the `x-flashbots-signature` header. -/

/-- Bytes are modelled as natural numbers (values below 256 in use). -/
abbrev Byte := Nat

/-- An HTTP request as the middleware sees it: method, headers and a
fully collected body. -/
structure HttpRequest where
  method : String
  headers : List (String × String)
  body : List Byte
deriving DecidableEq

/-- `HeaderMap::get`: first value stored under the name.
`http::HeaderName` normalizes every header name to lower case, so names
are modelled as already-normalized strings and compare exactly. -/
def headerGet (headers : List (String × String)) (name : String) : Option String :=
  (headers.find? fun p => p.fst == name).map Prod.snd

/-- `HeaderMap::insert`: replace any value stored under the name. -/
def headerInsert (headers : List (String × String)) (name value : String) :
    List (String × String) :=
  headers.filter (fun p => p.fst != name) ++ [(name, value)]

/-- Lower-case hex digit of a value below 16. -/
def hexDigitLower (n : Nat) : Char :=
  if n < 10 then Char.ofNat (48 + n) else Char.ofNat (87 + n)

/-- Two lower-case hex digits of a byte (leading zero kept), as
`format!("{:x}", ..)` renders each byte of a `B256`. -/
def byteToHexLower (b : Byte) : String :=
  String.mk [hexDigitLower (b / 16 % 16), hexDigitLower (b % 16)]

/-- Lower-case hex rendering of a byte string. -/
def bytesToHexLower (bs : List Byte) : String :=
  String.join (bs.map byteToHexLower)

/-- UTF-8 bytes of a string (`String::into_bytes`); the strings signed by
the middleware are ASCII, where a code point is its byte. -/
def stringUtf8 (s : String) : List Byte :=
  s.data.map Char.toNat

/-- The signer held by `AuthService`, abstracted from
`alloy::signers::Signer`: `address` is the `{:?}` rendering of
`signer.address()` and `signHex` the `{}` rendering of
`signer.sign_message(bytes)`. -/
structure Signer where
  address : String
  signHex : List Byte → String

/-- The header name constant `FLASHBOTS_HEADER`. -/
def flashbotsHeaderName : String := "x-flashbots-signature"

/-- Result of one `AuthService::call`: the request handed to the inner
service, plus the exact bytes passed to `sign_message` when signing
occurred. -/
structure AuthCallResult where
  request : HttpRequest
  signedMessage : Option (List Byte)
deriving DecidableEq

/-- The pass-through test of `AuthService::call`: content type not
exactly `application/json`, or a `x-flashbots-signature` header already
present, or a method other than POST. -/
def authPassThrough (request : HttpRequest) : Bool :=
  let is_json :=
    match headerGet request.headers "content-type" with
    | some v => v == "application/json"
    | none => false
  let has_flashbots_header :=
    (headerGet request.headers flashbotsHeaderName).isSome
  !is_json || has_flashbots_header || request.method != "POST"

/-- `AuthService::call`, with `keccak256` (alloy) passed explicitly.
On pass-through the request is forwarded untouched; otherwise the
middleware signs `"0x" + hex(keccak256(body))` and injects the header,
forwarding the collected body. -/
def authServiceCall (keccak256 : List Byte → List Byte) (signer : Signer)
    (request : HttpRequest) : AuthCallResult :=
  if authPassThrough request then
    { request := request, signedMessage := none }
  else
    let message := "0x" ++ bytesToHexLower (keccak256 request.body)
    let message_bytes := stringUtf8 message
    let signature := signer.signHex message_bytes
    let header_str := signer.address ++ ":0x" ++ signature
    { request :=
        { request with
          headers := headerInsert request.headers flashbotsHeaderName header_str },
      signedMessage := some message_bytes }

/-- C1: when the auth middleware signs (POST, content type exactly
`application/json`, no existing `x-flashbots-signature` header), the
injected header value is the signer's address, a colon, then "0x" and
the hex signature; the signed bytes are the UTF-8 of the ASCII string
`"0x" + lowercase-hex(keccak256(body))` (the hex rendering of the
digest, not the raw digest), and the body is forwarded unchanged. -/
theorem auth_sign_header_format (keccak256 : List Byte → List Byte)
    (signer : Signer) (request : HttpRequest)
    (hmethod : request.method = "POST")
    (hjson : headerGet request.headers "content-type" = some "application/json")
    (hnosig : headerGet request.headers flashbotsHeaderName = none) :
    authServiceCall keccak256 signer request =
      { request :=
          { method := request.method
            headers := headerInsert request.headers flashbotsHeaderName
              (signer.address ++ ":0x" ++
                signer.signHex
                  (stringUtf8 ("0x" ++ bytesToHexLower (keccak256 request.body))))
            body := request.body }
        signedMessage :=
          some (stringUtf8 ("0x" ++ bytesToHexLower (keccak256 request.body))) } := by
  have hcond : authPassThrough request = false := by
    unfold authPassThrough
    rw [hjson, hnosig, hmethod]
    simp
  simp [authServiceCall, hcond]

/-- Witness for C1 at a concrete request. -/
theorem auth_sign_header_format_witness :
    authServiceCall (fun _ => List.replicate 32 0)
        { address := "0xadd8", signHex := fun _ => "5168" }
        { method := "POST"
          headers := [("content-type", "application/json")]
          body := [1, 2, 3] } =
      { request :=
          { method := "POST"
            headers := [("content-type", "application/json"),
              ("x-flashbots-signature", "0xadd8:0x5168")]
            body := [1, 2, 3] }
        signedMessage :=
          some (stringUtf8 ("0x" ++ bytesToHexLower (List.replicate 32 0))) } := by
  have h := auth_sign_header_format (fun _ => List.replicate 32 0)
    { address := "0xadd8", signHex := fun _ => "5168" }
    { method := "POST"
      headers := [("content-type", "application/json")]
      body := [1, 2, 3] } rfl (by decide) (by decide)
  exact h.trans (by decide)

/-- C4: any request with method other than POST, content type other than
exactly `application/json`, or an existing `x-flashbots-signature`
header passes through the middleware unchanged, and no signing occurs. -/
theorem auth_passthrough (keccak256 : List Byte → List Byte)
    (signer : Signer) (request : HttpRequest)
    (h : request.method ≠ "POST"
      ∨ headerGet request.headers "content-type" ≠ some "application/json"
      ∨ (headerGet request.headers flashbotsHeaderName).isSome = true) :
    authServiceCall keccak256 signer request =
      { request := request, signedMessage := none } := by
  have hcond : authPassThrough request = true := by
    unfold authPassThrough
    rcases h with h | h | h
    · simp [h]
    · have hj : (match headerGet request.headers "content-type" with
          | some v => v == "application/json"
          | none => false) = false := by
        cases hct : headerGet request.headers "content-type" with
        | none => rfl
        | some v =>
          rw [hct] at h
          have hv : v ≠ "application/json" := fun hv => h (by rw [hv])
          simpa using hv
      simp [hj]
    · simp [h]
  simp [authServiceCall, hcond]

/-- Witness for C4 at a concrete GET request. -/
theorem auth_passthrough_witness :
    authServiceCall (fun _ => List.replicate 32 0)
        { address := "0xadd8", signHex := fun _ => "5168" }
        { method := "GET"
          headers := [("content-type", "application/json")]
          body := [1] } =
      { request :=
          { method := "GET"
            headers := [("content-type", "application/json")]
            body := [1] }
        signedMessage := none } :=
  auth_passthrough (fun _ => List.replicate 32 0)
    { address := "0xadd8", signHex := fun _ => "5168" }
    { method := "GET"
      headers := [("content-type", "application/json")]
      body := [1] }
    (Or.inl (by decide))

/-! ## Engine pipeline (`kazuka-core/src/engine.rs`)

`Engine::run` wires sources, strategies and executors through two
broadcast channels. For claim C2 the single-strategy, single-executor,
no-lag pipeline is modelled as three tasks communicating over FIFO
queues (a tokio broadcast channel delivers values to a non-lagging
subscriber in send order): the source task moves its next event onto
the event channel, the strategy task pops an event and pushes the
actions `process_event` returns (here, the echo strategy's single
action), the executor task pops an action and records it. -/

/-- Global state of the single-strategy, single-executor pipeline. -/
structure PipelineState (E A : Type) where
  srcPending : List E
  eventQ : List E
  actionQ : List A
  record : List A

/-- One scheduler step of one of the three tasks; `f` is the echo
strategy, mapping each event to the one action it emits. -/
inductive PipelineStep (f : E → A) :
    PipelineState E A → PipelineState E A → Prop where
  | source (e : E) (sp : List E) (q : List E) (aq : List A) (r : List A) :
      PipelineStep f ⟨e :: sp, q, aq, r⟩ ⟨sp, q ++ [e], aq, r⟩
  | strategy (e : E) (sp : List E) (q : List E) (aq : List A) (r : List A) :
      PipelineStep f ⟨sp, e :: q, aq, r⟩ ⟨sp, q, aq ++ [f e], r⟩
  | executor (a : A) (sp : List E) (q : List E) (aq : List A) (r : List A) :
      PipelineStep f ⟨sp, q, a :: aq, r⟩ ⟨sp, q, aq, r ++ [a]⟩

/-- The pipeline starts with the source's finite event list pending and
everything else empty. -/
def pipelineInit (es : List E) : PipelineState E A := ⟨es, [], [], []⟩

/-- Reachability under any interleaving of the three tasks. -/
def PipelineSteps (f : E → A) : PipelineState E A → PipelineState E A → Prop :=
  Relation.ReflTransGen (PipelineStep f)

theorem pipelineStep_inv {f : E → A} {s t : PipelineState E A}
    (h : PipelineStep f s t) :
    t.record ++ t.actionQ ++ t.eventQ.map f ++ t.srcPending.map f =
      s.record ++ s.actionQ ++ s.eventQ.map f ++ s.srcPending.map f := by
  cases h <;> simp

theorem pipelineSteps_inv {f : E → A} {s t : PipelineState E A}
    (h : PipelineSteps f s t) :
    t.record ++ t.actionQ ++ t.eventQ.map f ++ t.srcPending.map f =
      s.record ++ s.actionQ ++ s.eventQ.map f ++ s.srcPending.map f := by
  induction h with
  | refl => rfl
  | tail _ hstep ih => rw [pipelineStep_inv hstep, ih]

/-- C2: on a pipeline with one finite source, one strategy echoing each
event to one action, and one recording executor, with no subscriber
lag, every completed run (a reachable state from which no task can
step) has the executor's record equal to the source's events in
production order, mapped through the echo. -/
theorem pipeline_delivery_order {E A : Type} (f : E → A) (es : List E)
    (s : PipelineState E A)
    (hreach : PipelineSteps f (pipelineInit es) s)
    (hdone : ∀ t, ¬ PipelineStep f s t) :
    s.record = es.map f := by
  obtain ⟨sp, q, aq, r⟩ := s
  have hsp : sp = [] := by
    cases sp with
    | nil => rfl
    | cons e sp => exact absurd (PipelineStep.source e sp q aq r) (hdone _)
  subst hsp
  have hq : q = [] := by
    cases q with
    | nil => rfl
    | cons e q => exact absurd (PipelineStep.strategy e [] q aq r) (hdone _)
  subst hq
  have haq : aq = [] := by
    cases aq with
    | nil => rfl
    | cons a aq => exact absurd (PipelineStep.executor a [] [] aq r) (hdone _)
  subst haq
  have hinv := pipelineSteps_inv hreach
  simpa [pipelineInit] using hinv

/-- Witness for C2: a two-event run, stepped to completion. -/
theorem pipeline_delivery_order_witness :
    (⟨[], [], [], [2, 3]⟩ : PipelineState Nat Nat).record = [1, 2].map (· + 1) := by
  refine pipeline_delivery_order (· + 1) [1, 2] _ ?_ ?_
  · exact .head (.source 1 [2] [] [] [])
      (.head (.source 2 [] [1] [] [])
        (.head (.strategy 1 [] [2] [] [])
          (.head (.strategy 2 [] [] [2] [])
            (.head (.executor 2 [] [] [3] [])
              (.head (.executor 3 [] [] [] [2]) .refl)))))
  · intro t h
    cases h

/-! ## Engine startup (`Engine::run`)

The startup sequence is modelled as the trace of spawn and sync events
`run` performs, in program order: it spawns one task per executor,
then, per strategy in registration order, awaits `sync_state()` and —
on success — spawns the strategy task; a `sync_state` error makes `run`
return early with `?`, which drops the `JoinSet` and thereby aborts
every task spawned so far (tokio `JoinSet` semantics). Finally one task
per source is spawned. -/

inductive StartupEvent where
  | spawnExecutor (i : Nat)
  | syncState (i : Nat)
  | spawnStrategy (i : Nat)
  | spawnSource (i : Nat)
deriving DecidableEq

/-- Whether a startup event starts a task (all but `syncState`). -/
def StartupEvent.isSpawn : StartupEvent → Bool
  | .spawnExecutor _ => true
  | .spawnStrategy _ => true
  | .spawnSource _ => true
  | .syncState _ => false

/-- An engine, reduced to what startup observes: how many executors and
sources are registered, and each registered strategy's `sync_state`
outcome (`none` = success, `some e` = error `e`). -/
structure EngineModel where
  numExecutors : Nat
  strategySync : List (Option String)
  numSources : Nat

/-- Result of `run`: on success the spawned tasks are running; an early
error return drops the `JoinSet`, aborting every spawned task. -/
inductive RunResult where
  | ok (runningTasks : List StartupEvent)
  | err (e : String) (runningTasks : List StartupEvent)
deriving DecidableEq

/-- The strategy loop of `run` (`for mut strategy in self.strategies`):
sync, then spawn, stopping at the first failing `sync_state`. -/
def stratPhase : Nat → List (Option String) → List StartupEvent × Option String
  | _, [] => ([], none)
  | i, some e :: _ => ([StartupEvent.syncState i], some e)
  | i, none :: rest =>
    let r := stratPhase (i + 1) rest
    (StartupEvent.syncState i :: StartupEvent.spawnStrategy i :: r.fst, r.snd)

/-- `Engine::run`, as its startup trace and result. -/
def engineRun (engine : EngineModel) : List StartupEvent × RunResult :=
  let executorSpawns :=
    (List.range engine.numExecutors).map StartupEvent.spawnExecutor
  let strat := stratPhase 0 engine.strategySync
  match strat.snd with
  | some e =>
    -- early `?` return: the JoinSet is dropped, aborting all spawned tasks
    (executorSpawns ++ strat.fst, RunResult.err e [])
  | none =>
    let sourceSpawns :=
      (List.range engine.numSources).map StartupEvent.spawnSource
    let trace := executorSpawns ++ strat.fst ++ sourceSpawns
    (trace, RunResult.ok (trace.filter StartupEvent.isSpawn))

/-- A task spawn followed (later) by a `sync_state` call, somewhere in a
trace. The claim that every `sync_state` runs before any task loop
starts says exactly that no trace exhibits this pattern. -/
def hasSpawnThenSync : List StartupEvent → Bool
  | [] => false
  | e :: rest =>
    (e.isSpawn && rest.any fun x => !x.isSpawn) || hasSpawnThenSync rest

/-- C9, counterexample: on an engine with one executor and one strategy,
the executor task is spawned before the strategy's `sync_state` is
invoked, so it is not the case that `sync_state` runs before every task
loop starts. -/
theorem engine_sync_after_spawn_cex :
    ¬ hasSpawnThenSync
        (engineRun { numExecutors := 1, strategySync := [none], numSources := 1 }).fst
      = false := by
  decide

/-- Index and message of the first failing `sync_state`, if any. -/
def firstSyncError : List (Option String) → Option String
  | [] => none
  | some e :: _ => some e
  | none :: rest => firstSyncError rest

/-- How many strategies sync successfully before the first failure. -/
def syncOkCount : List (Option String) → Nat
  | none :: rest => syncOkCount rest + 1
  | _ => 0

/-- The trace of `k` successful strategy startups beginning at index `i`:
for each, `sync_state` first, then the spawn of that strategy's task. -/
def stratOkTrace : Nat → Nat → List StartupEvent
  | _, 0 => []
  | i, k + 1 =>
    StartupEvent.syncState i :: StartupEvent.spawnStrategy i :: stratOkTrace (i + 1) k

theorem stratPhase_closedForm (rs : List (Option String)) (i : Nat) :
    stratPhase i rs =
      (stratOkTrace i (syncOkCount rs) ++
        (match firstSyncError rs with
          | some _ => [StartupEvent.syncState (i + syncOkCount rs)]
          | none => []),
       firstSyncError rs) := by
  induction rs generalizing i with
  | nil => rfl
  | cons head rest ih =>
    cases head with
    | some e => simp [stratPhase, firstSyncError, syncOkCount, stratOkTrace]
    | none =>
      simp only [stratPhase, firstSyncError, syncOkCount, stratOkTrace, ih (i + 1)]
      have : i + (syncOkCount rest + 1) = i + 1 + syncOkCount rest := by omega
      cases firstSyncError rest <;> simp [this]

theorem syncOkCount_of_no_error {rs : List (Option String)}
    (h : firstSyncError rs = none) : syncOkCount rs = rs.length := by
  induction rs with
  | nil => rfl
  | cons head rest ih =>
    cases head with
    | some e => exact absurd h (by simp [firstSyncError])
    | none =>
      rw [firstSyncError] at h
      simp [syncOkCount, ih h]

/-- C9, amended: `Engine::run` first spawns one task per executor, then
calls each registered strategy's `sync_state` in registration order,
spawning that strategy's task right after its successful sync — so
every `sync_state` runs before any strategy or source task is spawned,
but after the executor tasks have started. If the `sync_state` of some
strategy fails, startup stops at that sync: no further strategy is
synced or spawned, no source task is spawned, `run` returns that first
error, and dropping the `JoinSet` aborts every already-spawned task
(no task is left running). -/
theorem engine_run_startup_amended (engine : EngineModel) :
    engineRun engine =
      match firstSyncError engine.strategySync with
      | some e =>
        ((List.range engine.numExecutors).map StartupEvent.spawnExecutor ++
          (stratOkTrace 0 (syncOkCount engine.strategySync) ++
            [StartupEvent.syncState (syncOkCount engine.strategySync)]),
         RunResult.err e [])
      | none =>
        let trace :=
          (List.range engine.numExecutors).map StartupEvent.spawnExecutor ++
            (stratOkTrace 0 engine.strategySync.length ++
              (List.range engine.numSources).map StartupEvent.spawnSource)
        (trace, RunResult.ok (trace.filter StartupEvent.isSpawn)) := by
  unfold engineRun
  rw [stratPhase_closedForm engine.strategySync 0]
  cases h : firstSyncError engine.strategySync with
  | some e => simp
  | none => simp [syncOkCount_of_no_error h]

/-! ## MEV-share SSE client (`kazuka-mev-share-sse/src/client.rs`)

`EventStream` wraps a decoded SSE connection; on a server retry
directive it re-connects through `EventStreamInner::retry`, which
increments `num_retries`, errors with `MaxRetriesExceeded` past the
configured cap, and otherwise issues a new GET built from the stored
endpoint and query. -/

/-- `SseError`, with the payloads the claims need. -/
inductive SseErr where
  | serdeJsonError (message : String)
  | http (message : String)
  | retryError
  | maxRetriesExceeded (n : Nat)
deriving DecidableEq

/-- The GET request `ActiveEventStream::connect` issues: endpoint, the
two fixed headers, and optional query parameters. -/
structure ConnectRequest where
  endpoint : String
  accept : String
  cacheControl : String
  query : Option Json

/-- `ActiveEventStream::connect`'s request for an endpoint and optional
query. -/
def connectRequest (endpoint : String) (query : Option Json) : ConnectRequest :=
  { endpoint := endpoint
    accept := "text/event-stream"
    cacheControl := "no-cache"
    query := query }

/-- `EventClient`: the retry policy (the wrapped reqwest client is
opaque). -/
structure EventClient where
  maxRetries : Option Nat

/-- `EventStreamInner`: the reconnect state stored in every stream. -/
structure EventStreamInner where
  numRetries : Nat
  endpoint : String
  maxRetries : Option Nat
  query : Option Json

/-- `EventStreamInner::retry`: increment the counter, fail with
`MaxRetriesExceeded(max)` once the counter exceeds a configured cap,
otherwise connect again with the stored endpoint and query. The new
inner state is returned alongside, the connection as the GET request it
issues. -/
def innerRetry (s : EventStreamInner) : EventStreamInner × Except SseErr ConnectRequest :=
  let s' := { s with numRetries := s.numRetries + 1 }
  match s.maxRetries with
  | some maxRetries =>
    if s'.numRetries > maxRetries then
      (s', Except.error (SseErr.maxRetriesExceeded maxRetries))
    else
      (s', Except.ok (connectRequest s'.endpoint s'.query))
  | none => (s', Except.ok (connectRequest s'.endpoint s'.query))

/-- `EventStream::reset_retries`. -/
def resetRetries (s : EventStreamInner) : EventStreamInner :=
  { s with numRetries := 0 }

/-- `EventStream::retry_with`: swap the endpoint, then retry. -/
def retryWithInner (s : EventStreamInner) (endpoint : String) :
    EventStreamInner × Except SseErr ConnectRequest :=
  innerRetry { s with endpoint := endpoint }

/-- `EventClient::subscribe`: the initial GET carries no query, and the
stored reconnect state has `query = None`. -/
def subscribeInit (client : EventClient) (endpoint : String) :
    ConnectRequest × EventStreamInner :=
  (connectRequest endpoint none,
   { numRetries := 0
     endpoint := endpoint
     maxRetries := client.maxRetries
     query := none })

/-- `EventClient::subscribe_with_query`: the initial GET carries the
serialized query, but the stored reconnect state is built with
`query: None` (client.rs line 131). -/
def subscribeWithQueryInit (client : EventClient) (endpoint : String)
    (query : Json) : ConnectRequest × EventStreamInner :=
  (connectRequest endpoint (some query),
   { numRetries := 0
     endpoint := endpoint
     maxRetries := client.maxRetries
     query := none })

/-- What one decoded SSE connection yields to `EventStream::poll_next`:
deserialized events interleaved with server retry directives. -/
inductive SseItem (T : Type) where
  | event (value : T)
  | retryDirective

/-- The full output of `EventStream::poll_next` driven to completion:
`inner` is the stream's stored reconnect state (`this.inner`), the
second argument the items remaining on the currently active connection,
the third the contents of each successive connection a reconnect will
reach. An event is yielded. A retry directive abandons the active
connection and runs `EventStreamInner::retry` on a *clone* of
`this.inner` (`let mut client = this.inner.clone()`, client.rs line
303): on a cap error the stream yields the error and ends; on a
successful reconnect the incremented clone is dropped with the resolved
future and the stream continues with the next connection and the
*unchanged* stored state (an exhausted server models a failed
reconnect, `SseError::RetryError`). When the active connection is
exhausted the stream ends. -/
def drainConn {T : Type} :
    EventStreamInner → List (SseItem T) → List (List (SseItem T)) →
      List (Except SseErr T)
  | _, [], _ => []
  | inner, SseItem.event v :: rest, server =>
    Except.ok v :: drainConn inner rest server
  | inner, SseItem.retryDirective :: _, server =>
    match innerRetry inner with
    | (_, Except.error e) => [Except.error e]
    | (_, Except.ok _) =>
      match server with
      | [] => [Except.error SseErr.retryError]
      | conn :: server' => drainConn inner conn server'
termination_by _ cur server => (server.length, cur.length)

/-- C3 (divergence evidence): `EventStream::poll_next` hands each server
retry directive a clone of `this.inner` (client.rs line 303) and never
writes the incremented clone back, so the stream's stored retry counter
does not accumulate. First conjunct: for any `max_retries = K + 1` (any
cap of at least 1), a stream facing nothing but server retry directives
— arbitrarily many, in particular K + 2 of them — reconnects on every
one (each clone increments 0 to 1 ≤ K + 1) and never yields
`MaxRetriesExceeded`; it only ends with `RetryError` once a reconnect
fails. The remaining conjuncts are the faithful parts of the claim:
`EventStreamInner::retry` does increment whatever state it is invoked
on — the stored state for the manual `retry()` / `retry_with()` paths —
a successful reconnect never zeroes it, and only `reset_retries()`
does. -/
theorem sse_retry_cap_code_bug :
    (∀ (K d : Nat) (endpoint : String) (q : Option Json),
      drainConn (T := Unit)
          { numRetries := 0, endpoint := endpoint, maxRetries := some (K + 1), query := q }
          [SseItem.retryDirective]
          (List.replicate d [SseItem.retryDirective]) =
        [Except.error SseErr.retryError]) ∧
    (∀ s : EventStreamInner, ((innerRetry s).fst).numRetries = s.numRetries + 1) ∧
    (∀ s : EventStreamInner, (resetRetries s).numRetries = 0) := by
  refine ⟨?_, ?_, fun s => rfl⟩
  · intro K d endpoint q
    have hle : ¬ 0 + 1 > K + 1 := by omega
    induction d with
    | zero => simp [drainConn, innerRetry, hle]
    | succ d ih =>
      rw [List.replicate]
      simp only [drainConn, innerRetry, hle, if_false]
      exact ih
  · intro s
    unfold innerRetry
    cases s.maxRetries with
    | none => rfl
    | some maxRetries =>
      simp only []
      split <;> rfl

theorem innerRetry_ok_query (s : EventStreamInner) (r : ConnectRequest)
    (h : (innerRetry s).snd = Except.ok r) : r.query = s.query := by
  obtain ⟨n, ep, mr, q⟩ := s
  unfold innerRetry at h
  cases mr with
  | none =>
    simp only [Except.ok.injEq] at h
    rw [← h]
    rfl
  | some maxRetries =>
    by_cases hgt : n + 1 > maxRetries
    · simp [hgt] at h
    · simp only [hgt, if_false] at h
      simp only [Except.ok.injEq] at h
      rw [← h]
      rfl

/-- C10: a stream from `subscribe_with_query` sends the serialized query
only on the initial GET: the stored reconnect state has `query = None`,
so the GET issued by any reconnect — a server retry directive, `retry()`
or `retry_with()` — carries no query parameters, unlike the initial
connect. -/
theorem subscribe_with_query_drops_query (client : EventClient)
    (endpoint : String) (q : Json) :
    (subscribeWithQueryInit client endpoint q).fst.query = some q ∧
    (subscribeWithQueryInit client endpoint q).snd.query = none ∧
    (∀ r, (innerRetry (subscribeWithQueryInit client endpoint q).snd).snd =
        Except.ok r → r.query = none) ∧
    (∀ endpoint2 r,
      (retryWithInner (subscribeWithQueryInit client endpoint q).snd endpoint2).snd =
        Except.ok r → r.query = none) := by
  refine ⟨rfl, rfl, ?_, ?_⟩
  · intro r hr
    exact innerRetry_ok_query _ r hr
  · intro endpoint2 r hr
    exact innerRetry_ok_query _ r hr

/-- Witness for C10 at a concrete subscription and reconnect. -/
theorem subscribe_with_query_drops_query_witness :
    (connectRequest "https://mev-share.example/events" none).query = none :=
  (subscribe_with_query_drops_query { maxRetries := none }
      "https://mev-share.example/events" (Json.str "blockFilter")).2.2.1
    (connectRequest "https://mev-share.example/events" none) rfl

/-! ## SSE event types (`kazuka-mev-share-sse/src/types.rs`)

`Event` derives Serialize/Deserialize with the `null_sequence` helper on
`logs` and `txs`; `EventTransaction`'s numeric hex fields use
`hex_to_option_unsigned`. The serde-derive semantics modelled here: a
JSON `null` for an `Option` field is `None`; a field that is absent
deserializes to `None` only when it has no custom
`deserialize_with`/`with` function — with one (and no
`#[serde(default)]`), an absent field is a `missing field` error. -/

/-- Value of a hex digit, either case (`from_str_radix(.., 16)`). -/
def hexDigitVal (c : Char) : Option Nat :=
  if 48 ≤ c.toNat ∧ c.toNat ≤ 57 then some (c.toNat - 48)
  else if 97 ≤ c.toNat ∧ c.toNat ≤ 102 then some (c.toNat - 87)
  else if 65 ≤ c.toNat ∧ c.toNat ≤ 70 then some (c.toNat - 55)
  else none

def isHexDigitChar (c : Char) : Bool :=
  (hexDigitVal c).isSome

/-- A `TxHash` (`B256`) in its canonical string form: `0x` and 64 hex
digits. -/
def isValidHashHex (s : String) : Bool :=
  match s.data with
  | '0' :: 'x' :: rest => rest.length == 64 && rest.all isHexDigitChar
  | _ => false

/-- Deserialization of the `hash` field (alloy `TxHash`): a `0x`-prefixed
64-hex-digit string; the hash is modelled by that string. -/
def hashDe : Json → Except String String
  | Json.str s =>
    if isValidHashHex s then Except.ok s
    else Except.error "invalid hash"
  | _ => Except.error "invalid type: expected hash string"

/-- `null_sequence::deserialize`:
`Option::<Vec<T>>::deserialize(..)?.unwrap_or_default()` — `null` gives
the empty vector, an array deserializes element-wise, anything else is a
type error. -/
def nullSequenceDe {α : Type} (deElem : Json → Except String α) :
    Json → Except String (List α)
  | Json.null => Except.ok []
  | Json.arr elements => elements.mapM deElem
  | _ => Except.error "invalid type: expected sequence or null"

/-- `null_sequence::serialize`: an empty vector is serialized with
`serialize_none`, which serde_json renders as JSON `null`; a non-empty
vector is serialized element-wise. -/
def nullSequenceSer {α : Type} (serElem : α → Json) (xs : List α) : Json :=
  if xs.isEmpty then Json.null else Json.arr (xs.map serElem)

/-- The `Event` struct, generic over the element types of `logs`
(`EventTransactionLog`, an alloy type) and `txs` (`EventTransaction`). -/
structure EventModel (L Tx : Type) where
  hash : String
  logs : List L
  transactions : List Tx

/-- Derived `Deserialize for Event`: an object; `hash` is required;
`logs` and `txs` go through `null_sequence` (a `with` function, so an
absent field is a `missing field` error); unknown keys are ignored. -/
def eventDe {L Tx : Type} (deLog : Json → Except String L)
    (deTx : Json → Except String Tx) : Json → Except String (EventModel L Tx)
  | Json.obj fields =>
    (match fields.lookup "hash" with
      | some v => hashDe v
      | none => Except.error "missing field hash").bind fun hash =>
    (match fields.lookup "logs" with
      | some v => nullSequenceDe deLog v
      | none => Except.error "missing field logs").bind fun logs =>
    (match fields.lookup "txs" with
      | some v => nullSequenceDe deTx v
      | none => Except.error "missing field txs").bind fun transactions =>
    Except.ok { hash := hash, logs := logs, transactions := transactions }
  | _ => Except.error "invalid type: expected object"

/-- Derived `Serialize for Event`: `logs` and `txs` go through
`null_sequence::serialize` (no `skip_serializing_if`, so the field is
always emitted). -/
def eventSer {L Tx : Type} (serLog : L → Json) (serTx : Tx → Json)
    (e : EventModel L Tx) : Json :=
  Json.obj [("hash", Json.str e.hash),
    ("logs", nullSequenceSer serLog e.logs),
    ("txs", nullSequenceSer serTx e.transactions)]

/-- The event of the repository's own SSE test, with `logs: null` and
(here) `txs: null`. -/
def sampleNullEventJson : Json :=
  Json.obj
    [("hash",
      Json.str "0xabda30c14d8a2e520028117013a68904f28eac159cdb0bca64763e80ba2edd05"),
     ("logs", Json.null),
     ("txs", Json.null)]

/-- C5, counterexample: the event JSON with `logs: null` and `txs: null`
does deserialize to empty sequences, but re-serializing that event
renders both fields as explicit JSON `null` again
(`null_sequence::serialize` calls `serialize_none` on an empty vector,
which serde_json prints as `null`) — refuting the claim's clause that
re-serialization does not reintroduce explicit nulls. -/
theorem sse_null_reserialize_cex :
    (@eventDe Json Json Except.ok Except.ok sampleNullEventJson =
      Except.ok
        { hash := "0xabda30c14d8a2e520028117013a68904f28eac159cdb0bca64763e80ba2edd05"
          logs := []
          transactions := [] }) ∧
    ¬ ((@eventSer Json Json id id
          { hash := "0xabda30c14d8a2e520028117013a68904f28eac159cdb0bca64763e80ba2edd05"
            logs := []
            transactions := [] }).lookupField "logs" ≠ some Json.null ∧
        (@eventSer Json Json id id
          { hash := "0xabda30c14d8a2e520028117013a68904f28eac159cdb0bca64763e80ba2edd05"
            logs := []
            transactions := [] }).lookupField "txs" ≠ some Json.null) := by
  exact ⟨rfl, fun h => h.1 rfl⟩

/-- C5, amended: an SSE event JSON whose `logs` and `txs` fields are
`null` deserializes to an event whose logs and transactions are empty
sequences; re-serializing such an event emits `logs` and `txs` as
explicit JSON nulls again. -/
theorem sse_null_normalization_amended {L Tx : Type}
    (deLog : Json → Except String L) (deTx : Json → Except String Tx)
    (serLog : L → Json) (serTx : Tx → Json) (h : String)
    (hvalid : isValidHashHex h = true) :
    eventDe deLog deTx
        (Json.obj [("hash", Json.str h), ("logs", Json.null), ("txs", Json.null)]) =
      Except.ok { hash := h, logs := [], transactions := [] } ∧
    ∀ hs : String,
      eventSer serLog serTx { hash := hs, logs := [], transactions := [] } =
        Json.obj [("hash", Json.str hs), ("logs", Json.null), ("txs", Json.null)] := by
  constructor
  · simp [eventDe, hashDe, hvalid, nullSequenceDe, Except.bind, List.lookup]
  · intro hs
    rfl

/-- Witness for the amended C5 at the sample hash. -/
theorem sse_null_normalization_amended_witness :
    @eventDe Json Json Except.ok Except.ok
        (Json.obj
          [("hash",
            Json.str "0xabda30c14d8a2e520028117013a68904f28eac159cdb0bca64763e80ba2edd05"),
           ("logs", Json.null), ("txs", Json.null)]) =
      Except.ok
        { hash := "0xabda30c14d8a2e520028117013a68904f28eac159cdb0bca64763e80ba2edd05"
          logs := []
          transactions := [] } :=
  (sse_null_normalization_amended Except.ok Except.ok id id
    "0xabda30c14d8a2e520028117013a68904f28eac159cdb0bca64763e80ba2edd05"
    (by decide)).1

/-- `u64::from_str_radix(s, 16)`: optional leading `+`, then at least one
hex digit; overflow past `u64::MAX` is an error. -/
def fromStrRadix16 (s : String) : Except String Nat :=
  let digits :=
    match s.data with
    | '+' :: rest => rest
    | cs => cs
  match digits with
  | [] => Except.error "cannot parse integer from empty string"
  | _ =>
    match digits.foldl
        (fun acc c => acc.bind fun n => (hexDigitVal c).map fun d => n * 16 + d)
        (some 0) with
    | some n =>
      if n < 2 ^ 64 then Except.ok n
      else Except.error "number too large to fit in target type"
    | none => Except.error "invalid digit found in string"

/-- `hex_to_option_unsigned` (for the `u64` fields): `null` is `None`; a
string must carry the `0x` prefix, the rest parsed in radix 16; any
other JSON value is a type error. -/
def hexToOptionUnsigned : Json → Except String (Option Nat)
  | Json.null => Except.ok none
  | Json.str s =>
    match s.data with
    | '0' :: 'x' :: rest => (fromStrRadix16 (String.mk rest)).map some
    | _ => Except.error "missing 0x prefix"
  | _ => Except.error "invalid type: expected string"

/-- The `EventTransaction` struct. The fields deserialized by external
(alloy) impls are kept as raw JSON values; the four `u64` fields carry
`deserialize_with = "hex_to_option_unsigned"`. -/
structure EventTransactionModel where
  hash : Option Json
  calldata : Option Json
  function_selector : Option Json
  «to» : Option Json
  «from» : Option Json
  value : Option Json
  max_fee_per_gas : Option Json
  max_priority_fee_per_gas : Option Json
  nonce : Option Nat
  chain_id : Option Nat
  access_list : Option Json
  gas : Option Nat
  tx_type : Option Nat

/-- A plain `Option<T>` field without a custom deserializer: absent or
`null` gives `None`, a value is kept (element parsing is the external
impl, modelled as the raw value). -/
def optionalField (fields : List (String × Json)) (name : String) : Option Json :=
  match fields.lookup name with
  | some Json.null => none
  | some v => some v
  | none => none

/-- An `Option<u64>` field with
`#[serde(deserialize_with = "hex_to_option_unsigned")]` and no
`#[serde(default)]`: serde-derive raises `missing field` when the field
is absent (the custom deserializer disables the implicit `None`). -/
def requiredHexField (fields : List (String × Json)) (name : String) :
    Except String (Option Nat) :=
  match fields.lookup name with
  | some v => hexToOptionUnsigned v
  | none => Except.error ("missing field " ++ name)

/-- Derived `Deserialize for EventTransaction` (missing-field checks in
declaration order; unknown keys ignored). -/
def eventTransactionDe : Json → Except String EventTransactionModel
  | Json.obj fields =>
    (requiredHexField fields "nonce").bind fun nonce =>
    (requiredHexField fields "chainId").bind fun chain_id =>
    (requiredHexField fields "gas").bind fun gas =>
    (requiredHexField fields "type").bind fun tx_type =>
    Except.ok
      { hash := optionalField fields "hash"
        calldata := optionalField fields "callData"
        function_selector := optionalField fields "functionSelector"
        «to» := optionalField fields "to"
        «from» := optionalField fields "from"
        value := optionalField fields "value"
        max_fee_per_gas := optionalField fields "maxFeePerGas"
        max_priority_fee_per_gas := optionalField fields "maxPriorityFeePerGas"
        nonce := nonce
        chain_id := chain_id
        access_list := optionalField fields "accessList"
        gas := gas
        tx_type := tx_type }
  | _ => Except.error "invalid type: expected object"

/-- C6 (divergence evidence): mixed-case `0x` hex values parse and a
value without the `0x` prefix is an error, as claimed — but a JSON
object in which a numeric hex field is absent does not deserialize with
`None`: it fails with a `missing field` error, because
`deserialize_with` on an `Option` field without `#[serde(default)]`
disables serde's implicit `None` for absent fields. The code's own
schema comment (`nonce?: string`, etc.) documents these fields as
optional. -/
theorem event_transaction_missing_nonce :
    eventTransactionDe (Json.obj []) = Except.error "missing field nonce" ∧
    hexToOptionUnsigned (Json.str "0xAbCd") = Except.ok (some 43981) ∧
    hexToOptionUnsigned (Json.str "1f") = Except.error "missing 0x prefix" ∧
    eventTransactionDe
        (Json.obj [("nonce", Json.str "0x96ed"), ("chainId", Json.str "0x1"),
          ("gas", Json.str "0xd6d8"), ("type", Json.str "0x0")]) =
      Except.ok
        { hash := none, calldata := none, function_selector := none,
          «to» := none, «from» := none, value := none,
          max_fee_per_gas := none, max_priority_fee_per_gas := none,
          nonce := some 38637, chain_id := some 1, access_list := none,
          gas := some 55000, tx_type := some 0 } := by
  exact ⟨rfl, rfl, rfl, rfl⟩

/-! ## PrivacyHint (`kazuka-mev-share-rpc-api/src/types/core.rs`) -/

/-- `PrivacyHint`: a set over the six hint tags. -/
structure PrivacyHint where
  calldata : Bool
  contract_address : Bool
  logs : Bool
  function_selector : Bool
  hash : Bool
  tx_hash : Bool
deriving DecidableEq

/-- `PrivacyHint::default()`. -/
def privacyHintDefault : PrivacyHint :=
  { calldata := false, contract_address := false, logs := false
    function_selector := false, hash := false, tx_hash := false }

/-- `impl Serialize for PrivacyHint`: a JSON array of the enabled tag
names, in field order. -/
def privacyHintSer (h : PrivacyHint) : Json :=
  Json.arr
    ((if h.calldata then [Json.str "calldata"] else []) ++
     (if h.contract_address then [Json.str "contract_address"] else []) ++
     (if h.logs then [Json.str "logs"] else []) ++
     (if h.function_selector then [Json.str "function_selector"] else []) ++
     (if h.hash then [Json.str "hash"] else []) ++
     (if h.tx_hash then [Json.str "tx_hash"] else []))

/-- The per-tag step of `impl Deserialize for PrivacyHint`'s loop. -/
def setHint (h : PrivacyHint) (hint : String) : Except String PrivacyHint :=
  if hint == "calldata" then Except.ok { h with calldata := true }
  else if hint == "contract_address" then Except.ok { h with contract_address := true }
  else if hint == "logs" then Except.ok { h with logs := true }
  else if hint == "function_selector" then Except.ok { h with function_selector := true }
  else if hint == "hash" then Except.ok { h with hash := true }
  else if hint == "tx_hash" then Except.ok { h with tx_hash := true }
  else Except.error "invalid privacy hint"

def jsonToString : Json → Except String String
  | Json.str s => Except.ok s
  | _ => Except.error "invalid type: expected string"

/-- `impl Deserialize for PrivacyHint`: `Vec::<String>::deserialize`,
then fold the tags over a default hint, failing on an unknown tag. -/
def privacyHintDe : Json → Except String PrivacyHint
  | Json.arr elements =>
    (elements.mapM jsonToString).bind fun hints =>
      hints.foldlM setHint privacyHintDefault
  | _ => Except.error "invalid type: expected sequence"

/-- The six valid hint tags. -/
def isValidHintTag (s : String) : Bool :=
  s == "calldata" || s == "contract_address" || s == "logs" ||
    s == "function_selector" || s == "hash" || s == "tx_hash"

theorem mapM_jsonToString_strs (tags : List String) :
    (tags.map Json.str).mapM jsonToString = Except.ok tags := by
  induction tags with
  | nil => rfl
  | cons t ts ih =>
    rw [List.map_cons, List.mapM_cons, jsonToString, ih]
    rfl

theorem setHint_invalid (acc : PrivacyHint) (t : String)
    (hbad : isValidHintTag t = false) :
    setHint acc t = Except.error "invalid privacy hint" := by
  unfold isValidHintTag at hbad
  simp only [Bool.or_eq_false_iff] at hbad
  obtain ⟨⟨⟨⟨⟨h1, h2⟩, h3⟩, h4⟩, h5⟩, h6⟩ := hbad
  simp [setHint, h1, h2, h3, h4, h5, h6]

theorem foldlM_setHint_invalid (tags : List String) (s : String)
    (hs : s ∈ tags) (hbad : isValidHintTag s = false) :
    ∀ acc : PrivacyHint, ∃ e, tags.foldlM setHint acc = Except.error e := by
  induction tags with
  | nil => cases hs
  | cons t ts ih =>
    intro acc
    rw [List.foldlM_cons]
    cases hst : setHint acc t with
    | error e => exact ⟨e, rfl⟩
    | ok acc2 =>
      rcases List.mem_cons.mp hs with rfl | hmem
      · rw [setHint_invalid acc s hbad] at hst
        cases hst
      · obtain ⟨e, he⟩ := ih hmem acc2
        exact ⟨e, he⟩

/-- C7: serializing any `PrivacyHint` subset to JSON and deserializing
the result yields the original subset, and deserializing a JSON array
containing a tag outside the six known names fails with an error. -/
theorem privacy_hint_roundtrip :
    (∀ h : PrivacyHint, privacyHintDe (privacyHintSer h) = Except.ok h) ∧
    (∀ (tags : List String) (s : String), s ∈ tags → isValidHintTag s = false →
      ∃ e, privacyHintDe (Json.arr (tags.map Json.str)) = Except.error e) := by
  constructor
  · intro h
    obtain ⟨a, b, c, d, e, f⟩ := h
    cases a <;> cases b <;> cases c <;> cases d <;> cases e <;> cases f <;> rfl
  · intro tags s hs hbad
    obtain ⟨e, he⟩ := foldlM_setHint_invalid tags s hs hbad privacyHintDefault
    exact ⟨e, by rw [privacyHintDe, mapM_jsonToString_strs]; simpa [Except.bind] using he⟩

/-- Witness for C7: an unknown tag is rejected. -/
theorem privacy_hint_roundtrip_witness :
    ∃ e, privacyHintDe (Json.arr (["frontrun"].map Json.str)) = Except.error e :=
  privacy_hint_roundtrip.2 ["frontrun"] "frontrun" (by simp) (by decide)

/-! ## Blind V2/V3 arbitrage strategy
(`strategies/kazuka-mev-share-arbitrage/src/strategy.rs`)

`process_event` takes a MEV-share event, returns early when it has no
logs or the first log's address is not a known V3 pool, and otherwise
builds one `MevSendBundle` per backrun size. The Ethereum provider is
abstracted to the current block number, and the arbitrage contract's
signed-tx generation to an explicit `signTx` function whose invocations
(the signed-tx RPC calls) are logged. -/

/-- `ProtocolVersion` (alloy). -/
inductive ProtocolVersion where
  | beta1
  | v0_1
deriving DecidableEq

/-- `Inclusion`: the bundle validity window. -/
structure Inclusion where
  block : Nat
  max_block : Option Nat
deriving DecidableEq

/-- `BundleItem`: a backrun target hash or a raw transaction. The tx
bytes are kept as the byte string they print as. -/
inductive BundleItem where
  | hash (hash : String)
  | tx (tx : String) (can_revert : Bool)
deriving DecidableEq

/-- `MevSendBundle`. `validity` and `privacy` are external alloy types
the strategy always leaves at `None`; their payload is irrelevant here. -/
structure MevSendBundle where
  protocol_version : ProtocolVersion
  inclusion : Inclusion
  bundle_body : List BundleItem
  validity : Option Unit
  privacy : Option Unit
deriving DecidableEq

/-- `UniswapV2PoolInfo`. -/
structure UniswapV2PoolInfo where
  v2_pool : String
  is_weth_token0 : Bool
deriving DecidableEq

/-- An `EventTransactionLog` (alloy): address, topics, data. -/
structure EventTransactionLogModel where
  address : String
  topics : List String
  data : String

/-- The strategy crate's `Event` union. -/
inductive ArbEvent where
  | mevShareEvent (event : EventModel EventTransactionLogModel Json)

/-- The strategy crate's `Action` union. -/
inductive ArbAction where
  | submitBundle (bundle : MevSendBundle)

/-- The strategy state `process_event` reads: the V3-to-V2 pool map
(`sync_state` loads it from CSV) and the dry-run flag. -/
structure ArbStrategyModel where
  poolMap : List (String × UniswapV2PoolInfo)
  dryRun : Bool

/-- The 14 backrun sizes, powers of ten from 1e5 to 1e18. -/
def arbSizes : List Nat :=
  [100000, 1000000, 10000000, 100000000, 1000000000, 10000000000,
   100000000000, 1000000000000, 10000000000000, 100000000000000,
   1000000000000000, 10000000000000000, 100000000000000000,
   1000000000000000000]

/-- A record of one `generate_arbitrage_tx` RPC call: pool address, V2
pool info, size. -/
abbrev SignCall := String × UniswapV2PoolInfo × Nat

/-- The `for size in sizes` loop of `generate_bundles`: in dry-run mode
the tx bytes are the placeholder `b"sample-tx"` and no RPC call is made;
otherwise `signTx` is invoked (and logged), its error aborting the
loop. -/
def generateLoop (signTx : String → UniswapV2PoolInfo → Nat → Except String String)
    (dryRun : Bool) (info : UniswapV2PoolInfo) (v3Address txHash : String)
    (blockNum : Nat) :
    List Nat → Except String (List MevSendBundle) × List SignCall
  | [] => (Except.ok [], [])
  | size :: rest =>
    let txAttempt : Except String String × List SignCall :=
      if dryRun then (Except.ok "sample-tx", [])
      else (signTx v3Address info size, [(v3Address, info, size)])
    match txAttempt.fst with
    | Except.error e => (Except.error e, txAttempt.snd)
    | Except.ok txBytes =>
      let bundle : MevSendBundle :=
        { protocol_version := ProtocolVersion.v0_1
          inclusion := { block := blockNum + 1, max_block := some (blockNum + 30) }
          bundle_body := [BundleItem.hash txHash, BundleItem.tx txBytes false]
          validity := none
          privacy := none }
      match generateLoop signTx dryRun info v3Address txHash blockNum rest with
      | (Except.ok bundles, calls) =>
        (Except.ok (bundle :: bundles), txAttempt.snd ++ calls)
      | (Except.error e, calls) => (Except.error e, txAttempt.snd ++ calls)

/-- `MevShareUniswapV2V3Arbitrage::generate_bundles`; the `.expect` on a
missing pool entry (unreachable after `process_event`'s check) is
modelled as an error. -/
def generateBundles (signTx : String → UniswapV2PoolInfo → Nat → Except String String)
    (strategy : ArbStrategyModel) (blockNum : Nat) (v3Address txHash : String) :
    Except String (List MevSendBundle) × List SignCall :=
  match strategy.poolMap.lookup v3Address with
  | none => (Except.error "Failed to get V3 pool info", [])
  | some info =>
    generateLoop signTx strategy.dryRun info v3Address txHash blockNum arbSizes

/-- `MevShareUniswapV2V3Arbitrage::process_event`, returning the emitted
actions and the signed-tx RPC calls that occurred. -/
def processEvent (signTx : String → UniswapV2PoolInfo → Nat → Except String String)
    (strategy : ArbStrategyModel) (blockNum : Nat) :
    ArbEvent → List ArbAction × List SignCall
  | ArbEvent.mevShareEvent event =>
    match event.logs with
    | [] => ([], [])
    | log :: _ =>
      if (strategy.poolMap.lookup log.address).isSome then
        match generateBundles signTx strategy blockNum log.address event.hash with
        | (Except.ok bundles, calls) => (bundles.map ArbAction.submitBundle, calls)
        | (Except.error _, calls) => ([], calls)
      else ([], [])

/-- The bundle every dry-run iteration constructs. -/
def dryRunBundle (txHash : String) (blockNum : Nat) : MevSendBundle :=
  { protocol_version := ProtocolVersion.v0_1
    inclusion := { block := blockNum + 1, max_block := some (blockNum + 30) }
    bundle_body := [BundleItem.hash txHash, BundleItem.tx "sample-tx" false]
    validity := none
    privacy := none }

theorem generateLoop_dry (signTx : String → UniswapV2PoolInfo → Nat → Except String String)
    (info : UniswapV2PoolInfo) (v3Address txHash : String) (blockNum : Nat)
    (sizes : List Nat) :
    generateLoop signTx true info v3Address txHash blockNum sizes =
      (Except.ok (List.replicate sizes.length (dryRunBundle txHash blockNum)), []) := by
  induction sizes with
  | nil => rfl
  | cons size rest ih =>
    rw [generateLoop, if_pos rfl]
    simp only [ih, dryRunBundle, List.replicate, List.nil_append]

/-- C8: for a MEV-share event with a non-empty log list whose first
log's address is in the loaded pool map, with dry-run enabled and
current block number `blockNum`, `process_event` returns exactly 14
`SubmitBundle` actions, each with protocol version v0.1,
`inclusion.block = blockNum + 1`, `inclusion.max_block = blockNum + 30`,
`bundle_body[0] = Hash(event.hash)` and
`bundle_body[1] = Tx("sample-tx", can_revert = false)` — and no
signed-tx RPC call occurs. -/
theorem arbitrage_dry_run_bundles
    (signTx : String → UniswapV2PoolInfo → Nat → Except String String)
    (strategy : ArbStrategyModel) (blockNum : Nat)
    (event : EventModel EventTransactionLogModel Json)
    (log : EventTransactionLogModel) (rest : List EventTransactionLogModel)
    (hlogs : event.logs = log :: rest)
    (hhit : (strategy.poolMap.lookup log.address).isSome = true)
    (hdry : strategy.dryRun = true) :
    processEvent signTx strategy blockNum (ArbEvent.mevShareEvent event) =
      (List.replicate 14 (ArbAction.submitBundle
        { protocol_version := ProtocolVersion.v0_1
          inclusion := { block := blockNum + 1, max_block := some (blockNum + 30) }
          bundle_body := [BundleItem.hash event.hash,
            BundleItem.tx "sample-tx" false]
          validity := none
          privacy := none }), []) := by
  obtain ⟨info, hinfo⟩ := Option.isSome_iff_exists.mp hhit
  rw [processEvent, hlogs]
  simp only [hhit, if_pos]
  rw [generateBundles, hinfo, hdry]
  simp [generateLoop_dry, dryRunBundle, List.map_replicate, arbSizes]

/-- Witness for C8 at a concrete event, pool map and block. -/
theorem arbitrage_dry_run_bundles_witness :
    processEvent (fun _ _ _ => Except.error "no rpc in this run")
        { poolMap := [("0xf4ad61db72f114be877e87d62dc5e7bd52df4d9b",
            { v2_pool := "0x27fd0857f0ef224097001e87e61026e39e1b04d1",
              is_weth_token0 := true })]
          dryRun := true }
        21000000
        (ArbEvent.mevShareEvent
          { hash := "0xabda30c14d8a2e520028117013a68904f28eac159cdb0bca64763e80ba2edd05"
            logs := [{ address := "0xf4ad61db72f114be877e87d62dc5e7bd52df4d9b"
                       topics := []
                       data := "0x" }]
            transactions := [] }) =
      (List.replicate 14 (ArbAction.submitBundle
        { protocol_version := ProtocolVersion.v0_1
          inclusion := { block := 21000001, max_block := some 21000030 }
          bundle_body :=
            [BundleItem.hash
              "0xabda30c14d8a2e520028117013a68904f28eac159cdb0bca64763e80ba2edd05",
             BundleItem.tx "sample-tx" false]
          validity := none
          privacy := none }), []) := by
  have h := arbitrage_dry_run_bundles
    (fun _ _ _ => Except.error "no rpc in this run")
    { poolMap := [("0xf4ad61db72f114be877e87d62dc5e7bd52df4d9b",
        { v2_pool := "0x27fd0857f0ef224097001e87e61026e39e1b04d1",
          is_weth_token0 := true })]
      dryRun := true }
    21000000
    { hash := "0xabda30c14d8a2e520028117013a68904f28eac159cdb0bca64763e80ba2edd05"
      logs := [{ address := "0xf4ad61db72f114be877e87d62dc5e7bd52df4d9b"
                 topics := []
                 data := "0x" }]
      transactions := [] }
    { address := "0xf4ad61db72f114be877e87d62dc5e7bd52df4d9b"
      topics := []
      data := "0x" }
    [] rfl (by decide) rfl
  exact h

end Kazuka
